import Mathlib

/-!
# Verification of the aiSandBox calculators against their specification

Shallow embedding of the three Python command-line utilities in this
repository — `fibonacci.py`, `calculator.py` and `advanced_calculator.py` —
together with proofs of the specification's testable properties.

Modelling conventions:
* Python floats are embedded as exact rationals (`ℚ`); float rounding is not
  modelled.  Results whose exact value is irrational (e.g. `math.sqrt` of a
  non-square, fractional powers) are represented by the marker
  `OpResult.unmodeled`.
* A function that returns an error string is modelled with
  `OpResult.errmsg`; an exception propagating to the caller is modelled with
  `OpResult.raise` (for operators) or `Except.error` (for `fibonacci`).
* The interactive programs are embedded as deterministic functions from the
  list of strings supplied to successive `input()` calls to the list of lines
  printed by `print()` (prompt texts passed to `input()` are not lines),
  plus an outcome and the unconsumed inputs.
-/

namespace AiSandBox

/- ## fibonacci.py -/

/-- The loop `for _ in range(2, n + 1): a, b = b, a + b` of `fibonacci`,
as a function of the iteration count applied to the running pair `(a, b)`. -/
def fibLoop : ℕ → ℕ × ℕ → ℕ × ℕ
  | 0, p => p
  | k + 1, (a, b) => fibLoop k (b, a + b)

/-- The number of iterations of `range(2, n + 1)`: `(n + 1) - 2`, clamped
at zero. -/
def fibIterations (n : ℤ) : ℕ := (n + 1 - 2).toNat

/-- The number of loop iterations a call `fibonacci(n)` actually executes:
zero when a guard (`n < 0`, `n == 0`, `n == 1`) returns before the loop,
`fibIterations n` otherwise. -/
def fibLoopRuns (n : ℤ) : ℕ :=
  if n < 0 ∨ n = 0 ∨ n = 1 then 0 else fibIterations n

/-- `fibonacci` from `fibonacci.py`.  The `raise ValueError(...)` on a
negative argument is modelled as `Except.error` with the message string. -/
def fibonacci (n : ℤ) : Except String ℕ :=
  if n < 0 then .error "Input must be a non-negative integer."
  else if n = 0 then .ok 0
  else if n = 1 then .ok 1
  else .ok (fibLoop (fibIterations n) (0, 1)).2

/- ## Shared interaction-layer model for the two calculators -/

/-- Result variant of a computation function: an exact numeric value, a
float value with no exact rational counterpart (not modelled further), a
returned error string, or an exception propagating to the caller. -/
inductive OpResult where
  | num (v : ℚ)
  | unmodeled
  | errmsg (s : String)
  | raise (s : String)
  deriving DecidableEq

/-- One line printed by `print()`: a fixed text line, a two-operand result
line `{a} {op} {b} = {r}`, or the square-root line
`Square root of {a} = {r}`. -/
inductive PLine where
  | text (s : String)
  | result2 (a : ℚ) (op : String) (b : ℚ) (r : OpResult)
  | resultSqrt (a : ℚ) (r : OpResult)
  deriving DecidableEq

/-- How a run ends: normal completion; the early `return` of the
`except ValueError` branch; `input()` on exhausted input (`EOFError`,
uncaught); or another uncaught exception. -/
inductive Outcome where
  | completed
  | aborted
  | eof
  | crashed (e : String)
  deriving DecidableEq

/-- The observable behaviour of one run: the printed lines, the outcome, and
the input strings never consumed by an `input()` call. -/
structure RunResult where
  lines : List PLine
  outcome : Outcome
  leftover : List String
  deriving DecidableEq

/-- Numeric value of a list of decimal digit characters, most significant
first. -/
def digitsVal (l : List Char) : ℕ :=
  l.foldl (fun a c => 10 * a + (c.toNat - '0'.toNat)) 0

/-- Python `float()` modelled on plain decimal literals: optional sign, then
digits with an optional decimal point, at least one digit in total.
Exponents, `inf`, `nan`, underscores and surrounding whitespace are not
modelled; on any other string the conversion fails (`ValueError`, `none`). -/
def parseFloat (s : String) : Option ℚ :=
  let cs := s.toList
  let signed : Bool × List Char :=
    match cs with
    | '-' :: t => (true, t)
    | '+' :: t => (false, t)
    | _ => (false, cs)
  let ip := signed.2.takeWhile Char.isDigit
  let rest := signed.2.dropWhile Char.isDigit
  let core : Option ℚ :=
    match rest with
    | [] => if ip = [] then none else some (digitsVal ip)
    | '.' :: fr =>
        if fr.all Char.isDigit ∧ (ip ≠ [] ∨ fr ≠ []) then
          some ((digitsVal ip : ℚ) + (digitsVal fr : ℚ) / ((10 : ℚ) ^ fr.length))
        else none
    | _ => none
  core.map fun q => if signed.1 then -q else q

/-- Zero-pad a digit string on the left to length `k`. -/
def padZeros (k : ℕ) (s : String) : String :=
  String.mk (List.replicate (k - s.length) '0') ++ s

/-- Python `repr` of a non-negative float value, modelled exactly for
rationals with a terminating decimal expansion (denominator dividing a power
of ten, exponent searched below 64): integer part, a dot, then the
fractional digits (`4` ↦ `"4.0"`, `4/5` ↦ `"0.8"`).  Any other value, whose
float repr depends on binary rounding, renders as a marker. -/
def decRender (q : ℚ) : String :=
  match (List.range 64).find? (fun k => (10 ^ k : ℕ) % q.den = 0) with
  | some k =>
      if k = 0 then toString q.num ++ ".0"
      else
        let scaled := (q.num * (10 ^ k : ℕ) / (q.den : ℤ)).toNat
        toString (scaled / 10 ^ k) ++ "." ++ padZeros k (toString (scaled % 10 ^ k))
  | none => "<nondecimal>"

/-- Python float `repr` with the sign handled (`-4/5` ↦ `"-0.8"`). -/
def ratRepr (q : ℚ) : String :=
  if q < 0 then "-" ++ decRender (-q) else decRender q

/-- How an operation result appears inside a printed f-string: numeric
results by their float repr, returned error strings verbatim.  (A `raise`
result is never printed: the exception propagates first.) -/
def OpResult.render : OpResult → String
  | .num v => ratRepr v
  | .unmodeled => "<unmodeled>"
  | .errmsg s => s
  | .raise s => s

/-- The text of a printed line. -/
def PLine.render : PLine → String
  | .text s => s
  | .result2 a op b r => ratRepr a ++ " " ++ op ++ " " ++ ratRepr b ++ " = " ++ r.render
  | .resultSqrt a r => "Square root of " ++ ratRepr a ++ " = " ++ r.render

/-- The `while True` choice loop shared by both calculators: consume inputs
until one is in `valid`, printing `msg` for each rejected input; `none` when
the inputs are exhausted (Python raises `EOFError`). -/
def menuLoop (valid : List String) (msg : String) :
    List String → List PLine × Option (String × List String)
  | [] => ([], none)
  | c :: rest =>
      if c ∈ valid then ([], some (c, rest))
      else
        let r := menuLoop valid msg rest
        (.text msg :: r.1, r.2)

/- ## calculator.py -/

namespace SimpleCalc

/-- `add` from `calculator.py`. -/
def add (x y : ℚ) : ℚ := x + y

/-- `subtract` from `calculator.py`. -/
def subtract (x y : ℚ) : ℚ := x - y

/-- `divide` from `calculator.py`: an error string on a zero divisor, the
quotient otherwise. -/
def divide (x y : ℚ) : OpResult :=
  if y = 0 then .errmsg "Error: Division by zero is not allowed."
  else .num (x / y)

/-- The five header lines `calculator()` prints before prompting. -/
def header : List PLine :=
  [.text "Simple Calculator", .text "Select operation:",
   .text "1. Add", .text "2. Subtract", .text "3. Divide"]

/-- The message printed for an invalid menu selection. -/
def invalidChoiceMsg : String := "Invalid input, please enter 1, 2, or 3."

/-- The message printed when `float()` raises `ValueError`. -/
def invalidNumberMsg : String := "Invalid input. Please enter numeric values."

/-- `calculator()` from `calculator.py`, as a function of the sequence of
strings returned by successive `input()` calls. -/
def calculator (inputs : List String) : RunResult :=
  match menuLoop ["1", "2", "3"] invalidChoiceMsg inputs with
  | (ls, none) => ⟨header ++ ls, .eof, []⟩
  | (ls, some (choice, rest)) =>
    match rest with
    | [] => ⟨header ++ ls, .eof, []⟩
    | s1 :: rest1 =>
      match parseFloat s1 with
      | none => ⟨header ++ ls ++ [.text invalidNumberMsg], .aborted, rest1⟩
      | some num1 =>
        match rest1 with
        | [] => ⟨header ++ ls, .eof, []⟩
        | s2 :: rest2 =>
          match parseFloat s2 with
          | none => ⟨header ++ ls ++ [.text invalidNumberMsg], .aborted, rest2⟩
          | some num2 =>
            if choice = "1" then
              ⟨header ++ ls ++ [.result2 num1 "+" num2 (.num (add num1 num2))],
                .completed, rest2⟩
            else if choice = "2" then
              ⟨header ++ ls ++ [.result2 num1 "-" num2 (.num (subtract num1 num2))],
                .completed, rest2⟩
            else
              ⟨header ++ ls ++ [.result2 num1 "/" num2 (divide num1 num2)],
                .completed, rest2⟩

end SimpleCalc

/- ## advanced_calculator.py -/

namespace AdvCalc

/-- `add` from `advanced_calculator.py`. -/
def add (x y : ℚ) : ℚ := x + y

/-- `multiply` from `advanced_calculator.py`. -/
def multiply (x y : ℚ) : ℚ := x * y

/-- `divide` from `advanced_calculator.py`: an error string on a zero
divisor, the quotient otherwise. -/
def divide (x y : ℚ) : OpResult :=
  if y = 0 then .errmsg "Error: Division by zero is not allowed."
  else .num (x / y)

/-- The non-negative integer `d`-th root of `m`, when `m` is a perfect
`d`-th power (`none` otherwise). -/
def nthRoot? (m d : ℕ) : Option ℕ :=
  (List.range (m + 2)).find? fun r => r ^ d = m

/-- The non-negative rational `d`-th root of `x` (meaningful for `0 ≤ x`),
when `x` is the `d`-th power of a rational: since `x.num` and `x.den` are
coprime, such a root exists exactly when both are perfect `d`-th powers. -/
def ratRoot? (x : ℚ) (d : ℕ) : Option ℚ :=
  match nthRoot? x.num.toNat d, nthRoot? x.den d with
  | some a, some b => some ((a : ℚ) / (b : ℚ))
  | _, _ => none

/-- `power` from `advanced_calculator.py`: the Python `**` operator with no
domain check of its own.  `0.0 ** y` with `y < 0` raises
`ZeroDivisionError`.  An integer-valued exponent gives the exact power
(negative exponents included).  A fractional exponent `n/d` (in lowest
terms) of a non-negative base gives the standard real power, embedded
exactly when that power is rational — i.e. when the base has a rational
`d`-th root `r`, giving `r ^ n` — and by the `unmodeled` float marker when
it is irrational.  A negative base with a fractional exponent gives a
complex value outside the rational embedding (`unmodeled`). -/
def power (x y : ℚ) : OpResult :=
  if x = 0 ∧ y < 0 then .raise "ZeroDivisionError"
  else if y.den = 1 then .num (x ^ y.num)
  else if x < 0 then .unmodeled
  else
    match ratRoot? x y.den with
    | some r => .num (r ^ y.num)
    | none => .unmodeled

/-- Python `%` on exact values: `x - y * ⌊x / y⌋`, the result taking the
sign of the divisor. -/
def pymod (x y : ℚ) : ℚ := x - y * ⌊x / y⌋

/-- `modulo` from `advanced_calculator.py`: an error string on a zero
divisor, Python's `%` otherwise. -/
def modulo (x y : ℚ) : OpResult :=
  if y = 0 then .errmsg "Error: Modulo by zero is not allowed."
  else .num (pymod x y)

/-- `square_root` from `advanced_calculator.py`: an error string on a
negative operand, otherwise `math.sqrt`, modelled exactly when the operand
is the square of a rational and by the `unmodeled` marker otherwise. -/
def square_root (x : ℚ) : OpResult :=
  if x < 0 then .errmsg "Error: Cannot take square root of a negative number."
  else if Rat.sqrt x * Rat.sqrt x = x then .num (Rat.sqrt x)
  else .unmodeled

/-- The eight header lines `advanced_calculator()` prints before
prompting. -/
def header : List PLine :=
  [.text "Advanced Calculator", .text "Select operation:",
   .text "1. Add", .text "2. Multiply", .text "3. Divide",
   .text "4. Power (x^y)", .text "5. Modulo (x % y)", .text "6. Square Root"]

/-- The message printed for an invalid menu selection. -/
def invalidChoiceMsg : String := "Invalid input, please enter a number between 1 and 6."

/-- The message printed when `float()` raises `ValueError`. -/
def invalidNumberMsg : String := "Invalid input. Please enter numeric values."

/-- `advanced_calculator()` from `advanced_calculator.py`, as a function of
the sequence of strings returned by successive `input()` calls.  Choice `6`
reads one operand, every other choice two. -/
def advanced_calculator (inputs : List String) : RunResult :=
  match menuLoop ["1", "2", "3", "4", "5", "6"] invalidChoiceMsg inputs with
  | (ls, none) => ⟨header ++ ls, .eof, []⟩
  | (ls, some (choice, rest)) =>
    if choice = "6" then
      match rest with
      | [] => ⟨header ++ ls, .eof, []⟩
      | s :: rest1 =>
        match parseFloat s with
        | none => ⟨header ++ ls ++ [.text invalidNumberMsg], .aborted, rest1⟩
        | some num =>
            ⟨header ++ ls ++ [.resultSqrt num (square_root num)], .completed, rest1⟩
    else
      match rest with
      | [] => ⟨header ++ ls, .eof, []⟩
      | s :: rest1 =>
        match parseFloat s with
        | none => ⟨header ++ ls ++ [.text invalidNumberMsg], .aborted, rest1⟩
        | some num =>
          match rest1 with
          | [] => ⟨header ++ ls, .eof, []⟩
          | s2 :: rest2 =>
            match parseFloat s2 with
            | none => ⟨header ++ ls ++ [.text invalidNumberMsg], .aborted, rest2⟩
            | some num2 =>
              if choice = "1" then
                ⟨header ++ ls ++ [.result2 num "+" num2 (.num (add num num2))],
                  .completed, rest2⟩
              else if choice = "2" then
                ⟨header ++ ls ++ [.result2 num "*" num2 (.num (multiply num num2))],
                  .completed, rest2⟩
              else if choice = "3" then
                ⟨header ++ ls ++ [.result2 num "/" num2 (divide num num2)],
                  .completed, rest2⟩
              else if choice = "4" then
                match power num num2 with
                | .raise e => ⟨header ++ ls, .crashed e, rest2⟩
                | r => ⟨header ++ ls ++ [.result2 num "^" num2 r], .completed, rest2⟩
              else
                ⟨header ++ ls ++ [.result2 num "%" num2 (modulo num num2)],
                  .completed, rest2⟩

end AdvCalc

/- ## Helper lemmas -/

/-- A `Rat.mk'` literal equals the division of its numerator by its
denominator, letting concrete rendering facts be checked by `decide`. -/
theorem mk'_eq_div (n : ℤ) (d : ℕ) (h1 : d ≠ 0) (c : n.natAbs.Coprime d) :
    (Rat.mk' n d h1 c : ℚ) = (n : ℚ) / (d : ℚ) := by
  rw [Rat.mk'_eq_divInt, Rat.divInt_eq_div]
  norm_num

/-- `nthRoot?` finds the integer `d`-th root whenever one exists. -/
theorem nthRoot?_eq_some (m d r : ℕ) (hd : d ≠ 0) (hr : r ^ d = m) :
    AdvCalc.nthRoot? m d = some r := by
  have hmem : r ∈ List.range (m + 2) := by
    have hle : r ≤ m := hr ▸ Nat.le_self_pow hd r
    exact List.mem_range.2 (by omega)
  have hsome : ((List.range (m + 2)).find? fun s => s ^ d = m).isSome :=
    List.find?_isSome.2 ⟨r, hmem, by simp [hr]⟩
  obtain ⟨s, hs⟩ := Option.isSome_iff_exists.1 hsome
  have hsd : s ^ d = m := by simpa using List.find?_some hs
  have hsr : s = r := Nat.pow_left_injective hd (by show s ^ d = r ^ d; rw [hsd, hr])
  unfold AdvCalc.nthRoot?
  rw [hs, hsr]

/-- `ratRoot?` finds the non-negative rational `d`-th root whenever one
exists. -/
theorem ratRoot?_eq_some (x r : ℚ) (hr : 0 ≤ r) (d : ℕ) (hd : d ≠ 0)
    (hx : r ^ d = x) : AdvCalc.ratRoot? x d = some r := by
  have hrnum : 0 ≤ r.num := Rat.num_nonneg.2 hr
  have hnum : x.num = r.num ^ d := by rw [← hx, Rat.num_pow]
  have hden : x.den = r.den ^ d := by rw [← hx, Rat.den_pow]
  have h1 : x.num.toNat = r.num.toNat ^ d := by
    have hcast : ((r.num.toNat ^ d : ℕ) : ℤ) = r.num ^ d := by
      push_cast
      rw [Int.toNat_of_nonneg hrnum]
    have hmain : (x.num.toNat : ℤ) = ((r.num.toNat ^ d : ℕ) : ℤ) := by
      rw [hcast, Int.toNat_of_nonneg (by rw [hnum]; exact pow_nonneg hrnum d), hnum]
    exact_mod_cast hmain
  have h2 : AdvCalc.nthRoot? x.num.toNat d = some r.num.toNat :=
    nthRoot?_eq_some _ d _ hd h1.symm
  have h3 : AdvCalc.nthRoot? x.den d = some r.den :=
    nthRoot?_eq_some _ d _ hd hden.symm
  unfold AdvCalc.ratRoot?
  rw [h2, h3]
  have hc : ((r.num.toNat : ℕ) : ℚ) = (r.num : ℚ) := by
    rw [← Int.cast_natCast, Int.toNat_of_nonneg hrnum]
  show some ((r.num.toNat : ℚ) / (r.den : ℚ)) = some r
  rw [hc, Rat.num_div_den]

/-- `power` returns the exact standard power whenever the base has a
rational root of the exponent's denominator (outside the
zero-base/negative-exponent raise). -/
theorem power_root_exact (x y r : ℚ) (hguard : ¬(x = 0 ∧ y < 0)) (hx : 0 ≤ x)
    (hr : 0 ≤ r) (hroot : r ^ (y.den : ℕ) = x) :
    AdvCalc.power x y = .num (r ^ y.num) := by
  unfold AdvCalc.power
  rw [if_neg hguard]
  by_cases hden : y.den = 1
  · rw [if_pos hden]
    rw [hden, pow_one] at hroot
    rw [hroot]
  · rw [if_neg hden, if_neg (not_lt.2 hx),
      ratRoot?_eq_some x r hr y.den (Rat.den_ne_zero y) hroot]

/-- `square_root` on an exact square returns the exact non-negative root. -/
theorem square_root_exact (x y : ℚ) (hy : 0 ≤ y) (hxy : y * y = x) :
    AdvCalc.square_root x = .num y := by
  have hx0 : 0 ≤ x := hxy ▸ mul_self_nonneg y
  have hs : Rat.sqrt x = y := by rw [← hxy, Rat.sqrt_eq, abs_of_nonneg hy]
  unfold AdvCalc.square_root
  rw [if_neg (not_lt.2 hx0), if_pos (by rw [hs]; exact hxy), hs]

/-- The menu loop consumes rejected selectors one at a time, printing the
invalid-selection message for each, and stops at the first valid one,
leaving the remaining inputs untouched. -/
theorem menuLoop_accepts (valid : List String) (msg : String) :
    ∀ (bad : List String), (∀ b ∈ bad, b ∉ valid) →
    ∀ (good : String) (rest : List String), good ∈ valid →
    menuLoop valid msg (bad ++ good :: rest) =
      (bad.map fun _ => PLine.text msg, some (good, rest)) := by
  intro bad
  induction bad with
  | nil =>
      intro _ good rest hg
      simp [menuLoop, if_pos hg]
  | cons b bs ih =>
      intro hbad good rest hg
      have hb : b ∉ valid := hbad b (by simp)
      simp only [List.cons_append, menuLoop, if_neg hb, List.map_cons, List.append_eq]
      rw [ih (fun x hx => hbad x (by simp [hx])) good rest hg]

/-- A selector the menu loop accepts is always a member of the valid set. -/
theorem menuLoop_sound (valid : List String) (msg : String) :
    ∀ (inputs : List String) (c : String) (rest : List String),
    (menuLoop valid msg inputs).2 = some (c, rest) → c ∈ valid := by
  intro inputs
  induction inputs with
  | nil => intro c rest h; simp [menuLoop] at h
  | cons i is ih =>
      intro c rest h
      by_cases hi : i ∈ valid
      · simp only [menuLoop, if_pos hi] at h
        obtain ⟨rfl, rfl⟩ : i = c ∧ is = rest := by
          simpa using h
        exact hi
      · simp only [menuLoop, if_neg hi] at h
        exact ih c rest h

/-- Every element of a list of `text` lines is a `text` line. -/
theorem text_only (xs : List String) (ls : List PLine) (h : ls = xs.map PLine.text) :
    ∀ l ∈ ls, ∃ t, l = PLine.text t := by
  intro l hl
  rw [h] at hl
  rcases List.mem_map.1 hl with ⟨t, _, rfl⟩
  exact ⟨t, rfl⟩

/-- The simple calculator on inputs `3`, `4`, `5`: choice `'3'` selects
division, so the run divides `4.0` by `5.0`. -/
theorem run_345 : SimpleCalc.calculator ["3", "4", "5"] =
    ⟨SimpleCalc.header ++ [.result2 4 "/" 5 (.num (4 / 5))], .completed, []⟩ := by
  have hm : menuLoop ["1", "2", "3"] SimpleCalc.invalidChoiceMsg ["3", "4", "5"] =
      ([], some ("3", ["4", "5"])) := by simp [menuLoop]
  have h4 : parseFloat "4" = some 4 := by decide
  have h5 : parseFloat "5" = some 5 := by decide
  have hdiv : SimpleCalc.divide 4 5 = .num (4 / 5) := by
    unfold SimpleCalc.divide; rw [if_neg (by norm_num : ¬(5 : ℚ) = 0)]
  simp [SimpleCalc.calculator, hm, h4, h5, hdiv]

/- ## Theorems: fibonacci.py -/

theorem fibLoop_fib (k i : ℕ) :
    fibLoop k (Nat.fib i, Nat.fib (i + 1)) = (Nat.fib (i + k), Nat.fib (i + k + 1)) := by
  induction k generalizing i with
  | zero => simp [fibLoop]
  | succ k ih =>
      have h := ih (i + 1)
      have e1 : i + 1 + k = i + (k + 1) := by omega
      have e2 : i + 1 + 1 = i + 2 := by omega
      rw [e2, e1] at h
      simp only [fibLoop, ← Nat.fib_add_two]
      exact h

theorem fibonacci_eq_fib (n : ℤ) (hn : 0 ≤ n) :
    fibonacci n = .ok (Nat.fib n.toNat) := by
  rcases eq_or_lt_of_le hn with h0 | hpos
  · simp [fibonacci, ← h0]
  rcases eq_or_lt_of_le (show (1 : ℤ) ≤ n from hpos) with h1 | h2
  · simp [fibonacci, ← h1]
  have hge2 : (2 : ℤ) ≤ n := h2
  have hn2 : 2 ≤ n.toNat := by omega
  have hiter : fibIterations n = n.toNat - 1 := by
    unfold fibIterations; omega
  have hkey := fibLoop_fib (n.toNat - 1) 0
  simp only [Nat.zero_add, Nat.fib_zero, Nat.fib_one] at hkey
  have hfix : n.toNat - 1 + 1 = n.toNat := by omega
  rw [hfix] at hkey
  simp only [fibonacci, hiter]
  rw [if_neg (by omega), if_neg (by omega), if_neg (by omega), hkey]

/-- C1: `fibonacci 0 = 0`, `fibonacci 1 = 1`, `fibonacci 10 = 55`, and for
every `n ≥ 2`, `fibonacci n = fibonacci (n-1) + fibonacci (n-2)`, computed by
the iterative loop `fibLoop` running `n - 1` steps from the pair `(0, 1)`. -/
theorem claim1_fibonacci_values_and_recurrence :
    fibonacci 0 = .ok 0 ∧ fibonacci 1 = .ok 1 ∧ fibonacci 10 = .ok 55 ∧
    ∀ n : ℤ, 2 ≤ n →
      (∃ a b : ℕ, fibonacci (n - 1) = .ok a ∧ fibonacci (n - 2) = .ok b ∧
        fibonacci n = .ok (a + b)) ∧
      fibonacci n = .ok (fibLoop ((n - 1).toNat) (0, 1)).2 := by
  refine ⟨by rfl, by rfl, by rfl, fun n hn => ⟨⟨Nat.fib (n - 1).toNat,
    Nat.fib (n - 2).toNat, fibonacci_eq_fib _ (by omega), fibonacci_eq_fib _ (by omega), ?_⟩, ?_⟩⟩
  · rw [fibonacci_eq_fib n (by omega)]
    obtain ⟨m, hm⟩ : ∃ m, n.toNat = m + 2 := ⟨n.toNat - 2, by omega⟩
    have h1 : (n - 1).toNat = m + 1 := by omega
    have h2 : (n - 2).toNat = m := by omega
    rw [h1, h2, hm, Nat.fib_add_two, Nat.add_comm]
  · have hiter : fibIterations n = (n - 1).toNat := by
      unfold fibIterations; omega
    simp only [fibonacci, hiter]
    rw [if_neg (by omega), if_neg (by omega), if_neg (by omega)]

/-- Witness for C1 at `n = 10`. -/
theorem claim1_fibonacci_values_and_recurrence_witness :
    (∃ a b : ℕ, fibonacci (10 - 1) = .ok a ∧ fibonacci (10 - 2) = .ok b ∧
      fibonacci 10 = .ok (a + b)) ∧
    fibonacci 10 = .ok (fibLoop (((10 : ℤ) - 1).toNat) (0, 1)).2 :=
  claim1_fibonacci_values_and_recurrence.2.2.2 10 (by decide)

/-- C6: for every negative `n`, `fibonacci n` raises the invalid-argument
error (modelled as `Except.error` with the `ValueError` message) rather than
returning a numeric result. -/
theorem claim6_fibonacci_negative_raises :
    ∀ n : ℤ, n < 0 →
      fibonacci n = .error "Input must be a non-negative integer." ∧
      ∀ m : ℕ, fibonacci n ≠ .ok m := by
  intro n hn
  have h : fibonacci n = .error "Input must be a non-negative integer." := by
    simp [fibonacci, if_pos hn]
  exact ⟨h, fun m hm => by rw [h] at hm; exact Except.noConfusion hm⟩

/-- Witness for C6 at `n = -1`. -/
theorem claim6_fibonacci_negative_raises_witness :
    fibonacci (-1) = .error "Input must be a non-negative integer." ∧
    ∀ m : ℕ, fibonacci (-1) ≠ .ok m :=
  claim6_fibonacci_negative_raises (-1) (by decide)

/-- C10: for every `n ≥ 0`, `fibonacci n` terminates with a natural-number
(hence non-negative) result, its loop executing exactly `max (n - 1) 0`
iterations; for `n ≥ 2` the result is exactly the second component of the
loop's final state. -/
theorem claim10_fibonacci_terminates_loop_count :
    ∀ n : ℤ, 0 ≤ n →
      (∃ m : ℕ, fibonacci n = .ok m) ∧
      fibLoopRuns n = (n - 1).toNat ∧
      (2 ≤ n → fibonacci n = .ok (fibLoop (fibLoopRuns n) (0, 1)).2) := by
  intro n hn
  refine ⟨⟨Nat.fib n.toNat, fibonacci_eq_fib n hn⟩, ?_, fun h2 => ?_⟩
  · unfold fibLoopRuns fibIterations
    rcases eq_or_lt_of_le hn with h0 | hpos
    · rw [if_pos (by omega)]; omega
    rcases eq_or_lt_of_le (show (1 : ℤ) ≤ n from hpos) with h1 | h2
    · rw [if_pos (by omega)]; omega
    · rw [if_neg (by omega)]; omega
  · have hruns : fibLoopRuns n = fibIterations n := by
      unfold fibLoopRuns; rw [if_neg (by omega)]
    simp only [fibonacci, hruns]
    rw [if_neg (by omega), if_neg (by omega), if_neg (by omega)]

/-- Witness for C10 at `n = 5`. -/
theorem claim10_fibonacci_terminates_loop_count_witness :
    (∃ m : ℕ, fibonacci 5 = .ok m) ∧
    fibLoopRuns 5 = ((5 : ℤ) - 1).toNat ∧
    (2 ≤ (5 : ℤ) → fibonacci 5 = .ok (fibLoop (fibLoopRuns 5) (0, 1)).2) :=
  claim10_fibonacci_terminates_loop_count 5 (by decide)

/- ## Theorems: computation functions of the calculators -/

/-- C2 fails as stated: `power` does not behave as standard exponentiation
for every pair of operands — at base `0` and exponent `-1` the underlying
`**` operator raises `ZeroDivisionError` instead of producing a numeric
result. -/
theorem claim2_power_counterexample :
    AdvCalc.power 0 (-1) = .raise "ZeroDivisionError" := by decide

/-- C2 amended: `power` performs no domain check of its own (it never
returns an error string) and behaves as standard exponentiation for every
pair of operands except a zero base with a negative exponent (where `**`
raises `ZeroDivisionError`): every integer-valued exponent — negative
exponents included — gives the exact power, and a fractional exponent of a
non-negative base gives the exact standard power whenever that power is
rational (the irrational and complex cases lie outside the exact rational
embedding); in particular `power 2 10 = 1024` and `power 4 (1/2) = 2`. -/
theorem claim2_power_amended :
    (∀ x y : ℚ, ¬(x = 0 ∧ y < 0) → y.den = 1 →
      AdvCalc.power x y = .num (x ^ y.num)) ∧
    (∀ x y r : ℚ, ¬(x = 0 ∧ y < 0) → 0 ≤ x → 0 ≤ r → r ^ (y.den : ℕ) = x →
      AdvCalc.power x y = .num (r ^ y.num)) ∧
    (∀ x y : ℚ, ∀ e : String, AdvCalc.power x y ≠ .errmsg e) ∧
    AdvCalc.power 2 10 = .num 1024 ∧
    AdvCalc.power 4 (1 / 2) = .num 2 := by
  refine ⟨fun x y hxy hden => ?_,
    fun x y r hxy hx hr hroot => power_root_exact x y r hxy hx hr hroot,
    fun x y e => ?_, ?_, ?_⟩
  · unfold AdvCalc.power
    rw [if_neg hxy, if_pos hden]
  · unfold AdvCalc.power
    repeat' split
    all_goals exact fun h => OpResult.noConfusion h
  · have h : AdvCalc.power 2 10 = .num (2 ^ ((10 : ℚ).num)) := by
      unfold AdvCalc.power
      rw [if_neg (by decide), if_pos (by decide)]
    rw [h, show ((10 : ℚ).num) = ((10 : ℕ) : ℤ) from by decide, zpow_natCast]
    norm_num
  · have e12 : (1 / 2 : ℚ) = Rat.mk' 1 2 (by norm_num) (by norm_num) := by
      rw [mk'_eq_div]; norm_num
    have hden2 : ((1 / 2 : ℚ).den : ℕ) = 2 := by rw [e12]
    have hnum1 : ((1 / 2 : ℚ).num : ℤ) = 1 := by rw [e12]
    have h := power_root_exact 4 (1 / 2) 2 (by norm_num) (by norm_num) (by norm_num)
      (by rw [hden2]; norm_num)
    rw [h, hnum1, zpow_one]

/-- Witness for C2 (amended) at base `4` and the fractional exponent
`1/2`: `4.0 ** 0.5 = 2.0`. -/
theorem claim2_power_amended_witness :
    AdvCalc.power 4 (1 / 2) = .num ((2 : ℚ) ^ ((1 / 2 : ℚ).num)) := by
  have e12 : (1 / 2 : ℚ) = Rat.mk' 1 2 (by norm_num) (by norm_num) := by
    rw [mk'_eq_div]; norm_num
  exact claim2_power_amended.2.1 4 (1 / 2) 2 (by norm_num) (by norm_num) (by norm_num)
    (by rw [e12]; show (2 : ℚ) ^ (2 : ℕ) = 4; norm_num)

/-- C4: for every dividend `x`, `divide x 0` (in both calculators) and
`modulo x 0` return their error strings — not a numeric result, and no
exception — while for a nonzero divisor `divide` returns the quotient; in
particular `divide 10 2 = 5.0`. -/
theorem claim4_divide_modulo_guards :
    (∀ x : ℚ,
      SimpleCalc.divide x 0 = .errmsg "Error: Division by zero is not allowed." ∧
      AdvCalc.divide x 0 = .errmsg "Error: Division by zero is not allowed." ∧
      AdvCalc.modulo x 0 = .errmsg "Error: Modulo by zero is not allowed." ∧
      (∀ v : ℚ, SimpleCalc.divide x 0 ≠ .num v ∧ AdvCalc.divide x 0 ≠ .num v ∧
        AdvCalc.modulo x 0 ≠ .num v) ∧
      (∀ e : String, SimpleCalc.divide x 0 ≠ .raise e ∧ AdvCalc.divide x 0 ≠ .raise e ∧
        AdvCalc.modulo x 0 ≠ .raise e) ∧
      ∀ y : ℚ, y ≠ 0 → SimpleCalc.divide x y = .num (x / y) ∧
        AdvCalc.divide x y = .num (x / y)) ∧
    SimpleCalc.divide 10 2 = .num 5 ∧ AdvCalc.divide 10 2 = .num 5 := by
  have hsd : ∀ x : ℚ,
      SimpleCalc.divide x 0 = .errmsg "Error: Division by zero is not allowed." :=
    fun x => by unfold SimpleCalc.divide; rw [if_pos rfl]
  have had : ∀ x : ℚ,
      AdvCalc.divide x 0 = .errmsg "Error: Division by zero is not allowed." :=
    fun x => by unfold AdvCalc.divide; rw [if_pos rfl]
  have ham : ∀ x : ℚ,
      AdvCalc.modulo x 0 = .errmsg "Error: Modulo by zero is not allowed." :=
    fun x => by unfold AdvCalc.modulo; rw [if_pos rfl]
  have h102 : (10 : ℚ) / 2 = 5 := by norm_num
  refine ⟨fun x => ⟨hsd x, had x, ham x,
      fun v => ⟨?_, ?_, ?_⟩, fun e => ⟨?_, ?_, ?_⟩, fun y hy => ⟨?_, ?_⟩⟩, ?_, ?_⟩
  · rw [hsd x]; exact fun h => OpResult.noConfusion h
  · rw [had x]; exact fun h => OpResult.noConfusion h
  · rw [ham x]; exact fun h => OpResult.noConfusion h
  · rw [hsd x]; exact fun h => OpResult.noConfusion h
  · rw [had x]; exact fun h => OpResult.noConfusion h
  · rw [ham x]; exact fun h => OpResult.noConfusion h
  · unfold SimpleCalc.divide; rw [if_neg hy]
  · unfold AdvCalc.divide; rw [if_neg hy]
  · unfold SimpleCalc.divide
    rw [if_neg (by norm_num : (2 : ℚ) ≠ 0), h102]
  · unfold AdvCalc.divide
    rw [if_neg (by norm_num : (2 : ℚ) ≠ 0), h102]

/-- Witness for C4 at `divide 5 0`, `divide 10 2` and `modulo 10 0`. -/
theorem claim4_divide_modulo_guards_witness :
    SimpleCalc.divide 5 0 = .errmsg "Error: Division by zero is not allowed." ∧
    SimpleCalc.divide 10 2 = .num (10 / 2) ∧
    AdvCalc.modulo 10 0 = .errmsg "Error: Modulo by zero is not allowed." :=
  ⟨(claim4_divide_modulo_guards.1 5).1,
   ((claim4_divide_modulo_guards.1 10).2.2.2.2.2 2 (by norm_num)).1,
   (claim4_divide_modulo_guards.1 10).2.2.1⟩

/-- C5: `square_root` returns its error string — never a number — exactly on
negative operands; on a non-negative operand it returns the numeric square
root (no error, and the exact root whenever one exists); in particular
`square_root 16 = 4.0`. -/
theorem claim5_square_root_guard :
    (∀ x : ℚ, x < 0 →
      AdvCalc.square_root x = .errmsg "Error: Cannot take square root of a negative number." ∧
      ∀ v : ℚ, AdvCalc.square_root x ≠ .num v) ∧
    (∀ x : ℚ, 0 ≤ x → ∀ e : String,
      AdvCalc.square_root x ≠ .errmsg e ∧ AdvCalc.square_root x ≠ .raise e) ∧
    (∀ x y : ℚ, 0 ≤ y → y * y = x → AdvCalc.square_root x = .num y) ∧
    AdvCalc.square_root 16 = .num 4 := by
  refine ⟨fun x hx => ?_, fun x hx e => ?_,
    fun x y hy hxy => square_root_exact x y hy hxy,
    square_root_exact 16 4 (by norm_num) (by norm_num)⟩
  · have h : AdvCalc.square_root x =
        .errmsg "Error: Cannot take square root of a negative number." := by
      unfold AdvCalc.square_root; rw [if_pos hx]
    exact ⟨h, fun v hv => by rw [h] at hv; exact OpResult.noConfusion hv⟩
  · unfold AdvCalc.square_root
    rw [if_neg (not_lt.2 hx)]
    split
    · exact ⟨fun h => OpResult.noConfusion h, fun h => OpResult.noConfusion h⟩
    · exact ⟨fun h => OpResult.noConfusion h, fun h => OpResult.noConfusion h⟩

/-- Witness for C5 at `x = -1` and `x = 16`. -/
theorem claim5_square_root_guard_witness :
    AdvCalc.square_root (-1) = .errmsg "Error: Cannot take square root of a negative number." ∧
    AdvCalc.square_root 16 = .num 4 :=
  ⟨(claim5_square_root_guard.1 (-1) (by norm_num)).1,
   claim5_square_root_guard.2.2.1 16 4 (by norm_num) (by norm_num)⟩

/- ## Theorems: end-to-end runs -/

/-- C3 fails as stated: with inputs `3`, `4`, `5` the first input selects
menu choice `'3'` (division, not addition), so the run prints
`4.0 / 5.0 = 0.8` and the claimed line `4.0 + 5.0 = 9.0` appears nowhere in
the output. -/
theorem claim3_simple_run_counterexample :
    "4.0 + 5.0 = 9.0" ∉ (SimpleCalc.calculator ["3", "4", "5"]).lines.map PLine.render ∧
    (SimpleCalc.calculator ["3", "4", "5"]).lines.map PLine.render =
      ["Simple Calculator", "Select operation:", "1. Add", "2. Subtract", "3. Divide",
       "4.0 / 5.0 = 0.8"] := by
  have e45 : (4 : ℚ) / 5 = Rat.mk' 4 5 (by norm_num) (by norm_num) := by
    rw [mk'_eq_div]; norm_num
  rw [run_345, e45]
  exact ⟨by decide, by decide⟩

/-- C3 amended: running the simple calculator with the sequential inputs
`"3"`, `"4"`, `"5"` selects division and produces exactly the output line
`4.0 / 5.0 = 0.8` after the menu header. -/
theorem claim3_simple_run_amended :
    SimpleCalc.calculator ["3", "4", "5"] =
      ⟨SimpleCalc.header ++ [.result2 4 "/" 5 (.num (4 / 5))], .completed, []⟩ ∧
    (SimpleCalc.calculator ["3", "4", "5"]).lines.map PLine.render =
      SimpleCalc.header.map PLine.render ++ ["4.0 / 5.0 = 0.8"] := by
  have e45 : (4 : ℚ) / 5 = Rat.mk' 4 5 (by norm_num) (by norm_num) := by
    rw [mk'_eq_div]; norm_num
  refine ⟨run_345, ?_⟩
  rw [run_345, e45]
  decide

/-- C7: the menu loop rejects every selector outside the valid set,
printing the re-prompt message for each rejected one, accepts only a valid
selector, and never crashes on a rejected one; with inputs `9`, `1`, `4`,
`5`, each calculator prints one re-prompt message for the `"9"` and then the
computed result of choice 1 (`4.0 + 5.0 = 9.0`), completing normally. -/
theorem claim7_menu_rejects_and_reprompts :
    (∀ (valid : List String) (msg : String) (bad : List String),
      (∀ b ∈ bad, b ∉ valid) → ∀ (good : String) (rest : List String), good ∈ valid →
      menuLoop valid msg (bad ++ good :: rest) =
        (bad.map fun _ => PLine.text msg, some (good, rest))) ∧
    (∀ (valid : List String) (msg : String) (inputs : List String) (c : String)
      (rest : List String), (menuLoop valid msg inputs).2 = some (c, rest) → c ∈ valid) ∧
    SimpleCalc.calculator ["9", "1", "4", "5"] =
      ⟨SimpleCalc.header ++ [.text SimpleCalc.invalidChoiceMsg,
        .result2 4 "+" 5 (.num 9)], .completed, []⟩ ∧
    AdvCalc.advanced_calculator ["9", "1", "4", "5"] =
      ⟨AdvCalc.header ++ [.text AdvCalc.invalidChoiceMsg,
        .result2 4 "+" 5 (.num 9)], .completed, []⟩ := by
  have h4 : parseFloat "4" = some 4 := by decide
  have h5 : parseFloat "5" = some 5 := by decide
  refine ⟨menuLoop_accepts, menuLoop_sound, ?_, ?_⟩
  · have hm : menuLoop ["1", "2", "3"] SimpleCalc.invalidChoiceMsg ["9", "1", "4", "5"] =
        ([.text SimpleCalc.invalidChoiceMsg], some ("1", ["4", "5"])) := by
      simpa using menuLoop_accepts ["1", "2", "3"] SimpleCalc.invalidChoiceMsg ["9"]
        (by decide) "1" ["4", "5"] (by decide)
    have hadd : SimpleCalc.add 4 5 = 9 := by norm_num [SimpleCalc.add]
    simp [SimpleCalc.calculator, hm, h4, h5, hadd]
  · have hm : menuLoop ["1", "2", "3", "4", "5", "6"] AdvCalc.invalidChoiceMsg
        ["9", "1", "4", "5"] =
        ([.text AdvCalc.invalidChoiceMsg], some ("1", ["4", "5"])) := by
      simpa using menuLoop_accepts ["1", "2", "3", "4", "5", "6"] AdvCalc.invalidChoiceMsg
        ["9"] (by decide) "1" ["4", "5"] (by decide)
    have hadd : AdvCalc.add 4 5 = 9 := by norm_num [AdvCalc.add]
    simp [AdvCalc.advanced_calculator, hm, h4, h5, hadd]

/-- Witness for C7: the menu loop on the rejected selector `"9"` followed by
the valid `"1"`. -/
theorem claim7_menu_rejects_and_reprompts_witness :
    menuLoop ["1", "2", "3"] SimpleCalc.invalidChoiceMsg (["9"] ++ "1" :: ["4", "5"]) =
      ((["9"] : List String).map fun _ => PLine.text SimpleCalc.invalidChoiceMsg,
        some ("1", ["4", "5"])) :=
  claim7_menu_rejects_and_reprompts.1 ["1", "2", "3"] SimpleCalc.invalidChoiceMsg
    ["9"] (by decide) "1" ["4", "5"] (by decide)

/-- C8: in both calculators, once a menu choice is accepted, a failed
numeric conversion of either operand prints the invalid-number message and
returns at once: the run is `aborted`, every printed line is a plain text
line (no computed result), and the remaining inputs are left unconsumed
(the operand prompt is not retried). -/
theorem claim8_conversion_failure_aborts :
    (∀ (bad : List String), (∀ b ∈ bad, b ∉ (["1", "2", "3"] : List String)) →
      ∀ choice ∈ (["1", "2", "3"] : List String), ∀ (s1 : String) (rest1 : List String),
      parseFloat s1 = none →
      SimpleCalc.calculator (bad ++ choice :: s1 :: rest1) =
        ⟨SimpleCalc.header ++ (bad.map fun _ => PLine.text SimpleCalc.invalidChoiceMsg) ++
          [.text SimpleCalc.invalidNumberMsg], .aborted, rest1⟩ ∧
      ∀ l ∈ (SimpleCalc.calculator (bad ++ choice :: s1 :: rest1)).lines,
        ∃ t, l = PLine.text t) ∧
    (∀ (bad : List String), (∀ b ∈ bad, b ∉ (["1", "2", "3"] : List String)) →
      ∀ choice ∈ (["1", "2", "3"] : List String),
      ∀ (s1 : String) (a : ℚ) (s2 : String) (rest2 : List String),
      parseFloat s1 = some a → parseFloat s2 = none →
      SimpleCalc.calculator (bad ++ choice :: s1 :: s2 :: rest2) =
        ⟨SimpleCalc.header ++ (bad.map fun _ => PLine.text SimpleCalc.invalidChoiceMsg) ++
          [.text SimpleCalc.invalidNumberMsg], .aborted, rest2⟩ ∧
      ∀ l ∈ (SimpleCalc.calculator (bad ++ choice :: s1 :: s2 :: rest2)).lines,
        ∃ t, l = PLine.text t) ∧
    (∀ (s1 : String) (rest1 : List String), parseFloat s1 = none →
      AdvCalc.advanced_calculator ("6" :: s1 :: rest1) =
        ⟨AdvCalc.header ++ [.text AdvCalc.invalidNumberMsg], .aborted, rest1⟩ ∧
      ∀ l ∈ (AdvCalc.advanced_calculator ("6" :: s1 :: rest1)).lines,
        ∃ t, l = PLine.text t) ∧
    (∀ choice ∈ (["1", "2", "3", "4", "5"] : List String),
      ∀ (s1 : String) (rest1 : List String), parseFloat s1 = none →
      AdvCalc.advanced_calculator (choice :: s1 :: rest1) =
        ⟨AdvCalc.header ++ [.text AdvCalc.invalidNumberMsg], .aborted, rest1⟩ ∧
      ∀ l ∈ (AdvCalc.advanced_calculator (choice :: s1 :: rest1)).lines,
        ∃ t, l = PLine.text t) ∧
    (∀ choice ∈ (["1", "2", "3", "4", "5"] : List String),
      ∀ (s1 : String) (a : ℚ) (s2 : String) (rest2 : List String),
      parseFloat s1 = some a → parseFloat s2 = none →
      AdvCalc.advanced_calculator (choice :: s1 :: s2 :: rest2) =
        ⟨AdvCalc.header ++ [.text AdvCalc.invalidNumberMsg], .aborted, rest2⟩ ∧
      ∀ l ∈ (AdvCalc.advanced_calculator (choice :: s1 :: s2 :: rest2)).lines,
        ∃ t, l = PLine.text t) := by
  refine ⟨?_, ?_, ?_, ?_, ?_⟩
  · intro bad hbad choice hc s1 rest1 hp
    have hm := menuLoop_accepts ["1", "2", "3"] SimpleCalc.invalidChoiceMsg bad hbad
      choice (s1 :: rest1) hc
    have heq : SimpleCalc.calculator (bad ++ choice :: s1 :: rest1) =
        ⟨SimpleCalc.header ++ (bad.map fun _ => PLine.text SimpleCalc.invalidChoiceMsg) ++
          [.text SimpleCalc.invalidNumberMsg], .aborted, rest1⟩ := by
      simp [SimpleCalc.calculator, hm, hp]
    refine ⟨heq, fun l hl => ?_⟩
    rw [heq] at hl
    exact text_only (["Simple Calculator", "Select operation:", "1. Add", "2. Subtract",
      "3. Divide"] ++ (bad.map fun _ => SimpleCalc.invalidChoiceMsg) ++
      [SimpleCalc.invalidNumberMsg]) _
      (by simp [SimpleCalc.header, List.map_append, List.map_map, Function.comp]) l hl
  · intro bad hbad choice hc s1 a s2 rest2 hp1 hp2
    have hm := menuLoop_accepts ["1", "2", "3"] SimpleCalc.invalidChoiceMsg bad hbad
      choice (s1 :: s2 :: rest2) hc
    have heq : SimpleCalc.calculator (bad ++ choice :: s1 :: s2 :: rest2) =
        ⟨SimpleCalc.header ++ (bad.map fun _ => PLine.text SimpleCalc.invalidChoiceMsg) ++
          [.text SimpleCalc.invalidNumberMsg], .aborted, rest2⟩ := by
      simp [SimpleCalc.calculator, hm, hp1, hp2]
    refine ⟨heq, fun l hl => ?_⟩
    rw [heq] at hl
    exact text_only (["Simple Calculator", "Select operation:", "1. Add", "2. Subtract",
      "3. Divide"] ++ (bad.map fun _ => SimpleCalc.invalidChoiceMsg) ++
      [SimpleCalc.invalidNumberMsg]) _
      (by simp [SimpleCalc.header, List.map_append, List.map_map, Function.comp]) l hl
  · intro s1 rest1 hp
    have hm : menuLoop ["1", "2", "3", "4", "5", "6"] AdvCalc.invalidChoiceMsg
        ("6" :: s1 :: rest1) = ([], some ("6", s1 :: rest1)) := by simp [menuLoop]
    have heq : AdvCalc.advanced_calculator ("6" :: s1 :: rest1) =
        ⟨AdvCalc.header ++ [.text AdvCalc.invalidNumberMsg], .aborted, rest1⟩ := by
      simp [AdvCalc.advanced_calculator, hm, hp]
    refine ⟨heq, fun l hl => ?_⟩
    rw [heq] at hl
    exact text_only (["Advanced Calculator", "Select operation:", "1. Add", "2. Multiply",
      "3. Divide", "4. Power (x^y)", "5. Modulo (x % y)", "6. Square Root"] ++
      [AdvCalc.invalidNumberMsg]) _
      (by simp [AdvCalc.header, List.map_append]) l hl
  · intro choice hc s1 rest1 hp
    have hc6 : choice ≠ "6" := by
      simp only [List.mem_cons, List.mem_singleton] at hc
      rcases hc with rfl | rfl | rfl | rfl | rfl | h
      all_goals first | decide | simp at h
    have hm : menuLoop ["1", "2", "3", "4", "5", "6"] AdvCalc.invalidChoiceMsg
        (choice :: s1 :: rest1) = ([], some (choice, s1 :: rest1)) := by
      have : choice ∈ (["1", "2", "3", "4", "5", "6"] : List String) := by
        simp only [List.mem_cons, List.mem_singleton] at hc ⊢
        tauto
      simp only [menuLoop, if_pos this]
    have heq : AdvCalc.advanced_calculator (choice :: s1 :: rest1) =
        ⟨AdvCalc.header ++ [.text AdvCalc.invalidNumberMsg], .aborted, rest1⟩ := by
      simp [AdvCalc.advanced_calculator, hm, hp, hc6]
    refine ⟨heq, fun l hl => ?_⟩
    rw [heq] at hl
    exact text_only (["Advanced Calculator", "Select operation:", "1. Add", "2. Multiply",
      "3. Divide", "4. Power (x^y)", "5. Modulo (x % y)", "6. Square Root"] ++
      [AdvCalc.invalidNumberMsg]) _
      (by simp [AdvCalc.header, List.map_append]) l hl
  · intro choice hc s1 a s2 rest2 hp1 hp2
    have hc6 : choice ≠ "6" := by
      simp only [List.mem_cons, List.mem_singleton] at hc
      rcases hc with rfl | rfl | rfl | rfl | rfl | h
      all_goals first | decide | simp at h
    have hm : menuLoop ["1", "2", "3", "4", "5", "6"] AdvCalc.invalidChoiceMsg
        (choice :: s1 :: s2 :: rest2) = ([], some (choice, s1 :: s2 :: rest2)) := by
      have : choice ∈ (["1", "2", "3", "4", "5", "6"] : List String) := by
        simp only [List.mem_cons, List.mem_singleton] at hc ⊢
        tauto
      simp only [menuLoop, if_pos this]
    have heq : AdvCalc.advanced_calculator (choice :: s1 :: s2 :: rest2) =
        ⟨AdvCalc.header ++ [.text AdvCalc.invalidNumberMsg], .aborted, rest2⟩ := by
      simp [AdvCalc.advanced_calculator, hm, hp1, hp2, hc6]
    refine ⟨heq, fun l hl => ?_⟩
    rw [heq] at hl
    exact text_only (["Advanced Calculator", "Select operation:", "1. Add", "2. Multiply",
      "3. Divide", "4. Power (x^y)", "5. Modulo (x % y)", "6. Square Root"] ++
      [AdvCalc.invalidNumberMsg]) _
      (by simp [AdvCalc.header, List.map_append]) l hl

/-- Witness for C8: the simple calculator with choice `"1"` and the
non-numeric first operand `"x"`. -/
theorem claim8_conversion_failure_aborts_witness :
    SimpleCalc.calculator (([] : List String) ++ "1" :: "x" :: ["5"]) =
      ⟨SimpleCalc.header ++ ((([] : List String)).map fun _ =>
        PLine.text SimpleCalc.invalidChoiceMsg) ++
        [.text SimpleCalc.invalidNumberMsg], .aborted, ["5"]⟩ :=
  (claim8_conversion_failure_aborts.1 [] (by decide) "1" (by decide) "x" ["5"]
    (by decide)).1

/-- C9: the advanced calculator reads exactly one operand when and only when
choice 6 (square root) is selected — completing with the
`Square root of {a} = {result}` line and leaving later inputs unconsumed —
while every other choice demands two operands (a single operand runs out of
input) and, when the run completes, prints the two-operand
`{a} {op} {b} = {result}` line; concretely, `6`, `16` prints
`Square root of 16.0 = 4.0`. -/
theorem claim9_advanced_operand_arity :
    (∀ (s : String) (a : ℚ) (rest : List String), parseFloat s = some a →
      AdvCalc.advanced_calculator ("6" :: s :: rest) =
        ⟨AdvCalc.header ++ [.resultSqrt a (AdvCalc.square_root a)], .completed, rest⟩) ∧
    (∀ choice ∈ (["1", "2", "3", "4", "5"] : List String),
      ∀ (s1 : String) (a : ℚ), parseFloat s1 = some a →
      AdvCalc.advanced_calculator [choice, s1] = ⟨AdvCalc.header, .eof, []⟩) ∧
    (∀ choice ∈ (["1", "2", "3", "4", "5"] : List String),
      ∀ (s1 s2 : String) (a b : ℚ) (rest : List String),
      parseFloat s1 = some a → parseFloat s2 = some b →
      (AdvCalc.advanced_calculator (choice :: s1 :: s2 :: rest)).leftover = rest ∧
      ((AdvCalc.advanced_calculator (choice :: s1 :: s2 :: rest)).outcome = .completed →
        ∃ op r, (AdvCalc.advanced_calculator (choice :: s1 :: s2 :: rest)).lines =
          AdvCalc.header ++ [.result2 a op b r])) ∧
    (AdvCalc.advanced_calculator ["6", "16"]).lines.map PLine.render =
      AdvCalc.header.map PLine.render ++ ["Square root of 16.0 = 4.0"] := by
  refine ⟨?_, ?_, ?_, ?_⟩
  · intro s a rest hp
    have hm : menuLoop ["1", "2", "3", "4", "5", "6"] AdvCalc.invalidChoiceMsg
        ("6" :: s :: rest) = ([], some ("6", s :: rest)) := by simp [menuLoop]
    simp [AdvCalc.advanced_calculator, hm, hp]
  · intro choice hc s1 a hp
    simp only [List.mem_cons, List.mem_singleton] at hc
    rcases hc with rfl | rfl | rfl | rfl | rfl | h
    · have hm : menuLoop ["1", "2", "3", "4", "5", "6"] AdvCalc.invalidChoiceMsg
          ["1", s1] = ([], some ("1", [s1])) := by simp [menuLoop]
      simp [AdvCalc.advanced_calculator, hm, hp]
    · have hm : menuLoop ["1", "2", "3", "4", "5", "6"] AdvCalc.invalidChoiceMsg
          ["2", s1] = ([], some ("2", [s1])) := by simp [menuLoop]
      simp [AdvCalc.advanced_calculator, hm, hp]
    · have hm : menuLoop ["1", "2", "3", "4", "5", "6"] AdvCalc.invalidChoiceMsg
          ["3", s1] = ([], some ("3", [s1])) := by simp [menuLoop]
      simp [AdvCalc.advanced_calculator, hm, hp]
    · have hm : menuLoop ["1", "2", "3", "4", "5", "6"] AdvCalc.invalidChoiceMsg
          ["4", s1] = ([], some ("4", [s1])) := by simp [menuLoop]
      simp [AdvCalc.advanced_calculator, hm, hp]
    · have hm : menuLoop ["1", "2", "3", "4", "5", "6"] AdvCalc.invalidChoiceMsg
          ["5", s1] = ([], some ("5", [s1])) := by simp [menuLoop]
      simp [AdvCalc.advanced_calculator, hm, hp]
    · simp at h
  · intro choice hc s1 s2 a b rest h1 h2
    simp only [List.mem_cons, List.mem_singleton] at hc
    rcases hc with rfl | rfl | rfl | rfl | rfl | h
    · have hm : menuLoop ["1", "2", "3", "4", "5", "6"] AdvCalc.invalidChoiceMsg
          ("1" :: s1 :: s2 :: rest) = ([], some ("1", s1 :: s2 :: rest)) := by
        simp [menuLoop]
      have heq : AdvCalc.advanced_calculator ("1" :: s1 :: s2 :: rest) =
          ⟨AdvCalc.header ++ [.result2 a "+" b (.num (AdvCalc.add a b))],
            .completed, rest⟩ := by
        simp [AdvCalc.advanced_calculator, hm, h1, h2]
      rw [heq]
      exact ⟨rfl, fun _ => ⟨"+", .num (AdvCalc.add a b), rfl⟩⟩
    · have hm : menuLoop ["1", "2", "3", "4", "5", "6"] AdvCalc.invalidChoiceMsg
          ("2" :: s1 :: s2 :: rest) = ([], some ("2", s1 :: s2 :: rest)) := by
        simp [menuLoop]
      have heq : AdvCalc.advanced_calculator ("2" :: s1 :: s2 :: rest) =
          ⟨AdvCalc.header ++ [.result2 a "*" b (.num (AdvCalc.multiply a b))],
            .completed, rest⟩ := by
        simp [AdvCalc.advanced_calculator, hm, h1, h2]
      rw [heq]
      exact ⟨rfl, fun _ => ⟨"*", .num (AdvCalc.multiply a b), rfl⟩⟩
    · have hm : menuLoop ["1", "2", "3", "4", "5", "6"] AdvCalc.invalidChoiceMsg
          ("3" :: s1 :: s2 :: rest) = ([], some ("3", s1 :: s2 :: rest)) := by
        simp [menuLoop]
      have heq : AdvCalc.advanced_calculator ("3" :: s1 :: s2 :: rest) =
          ⟨AdvCalc.header ++ [.result2 a "/" b (AdvCalc.divide a b)],
            .completed, rest⟩ := by
        simp [AdvCalc.advanced_calculator, hm, h1, h2]
      rw [heq]
      exact ⟨rfl, fun _ => ⟨"/", AdvCalc.divide a b, rfl⟩⟩
    · have hm : menuLoop ["1", "2", "3", "4", "5", "6"] AdvCalc.invalidChoiceMsg
          ("4" :: s1 :: s2 :: rest) = ([], some ("4", s1 :: s2 :: rest)) := by
        simp [menuLoop]
      rcases hp : AdvCalc.power a b with v | _ | e | e
      · have heq : AdvCalc.advanced_calculator ("4" :: s1 :: s2 :: rest) =
            ⟨AdvCalc.header ++ [.result2 a "^" b (.num v)], .completed, rest⟩ := by
          simp [AdvCalc.advanced_calculator, hm, h1, h2, hp]
        rw [heq]
        exact ⟨rfl, fun _ => ⟨"^", .num v, rfl⟩⟩
      · have heq : AdvCalc.advanced_calculator ("4" :: s1 :: s2 :: rest) =
            ⟨AdvCalc.header ++ [.result2 a "^" b .unmodeled], .completed, rest⟩ := by
          simp [AdvCalc.advanced_calculator, hm, h1, h2, hp]
        rw [heq]
        exact ⟨rfl, fun _ => ⟨"^", .unmodeled, rfl⟩⟩
      · have heq : AdvCalc.advanced_calculator ("4" :: s1 :: s2 :: rest) =
            ⟨AdvCalc.header ++ [.result2 a "^" b (.errmsg e)], .completed, rest⟩ := by
          simp [AdvCalc.advanced_calculator, hm, h1, h2, hp]
        rw [heq]
        exact ⟨rfl, fun _ => ⟨"^", .errmsg e, rfl⟩⟩
      · have heq : AdvCalc.advanced_calculator ("4" :: s1 :: s2 :: rest) =
            ⟨AdvCalc.header, .crashed e, rest⟩ := by
          simp [AdvCalc.advanced_calculator, hm, h1, h2, hp]
        rw [heq]
        exact ⟨rfl, fun hco => absurd hco (fun hco => Outcome.noConfusion hco)⟩
    · have hm : menuLoop ["1", "2", "3", "4", "5", "6"] AdvCalc.invalidChoiceMsg
          ("5" :: s1 :: s2 :: rest) = ([], some ("5", s1 :: s2 :: rest)) := by
        simp [menuLoop]
      have heq : AdvCalc.advanced_calculator ("5" :: s1 :: s2 :: rest) =
          ⟨AdvCalc.header ++ [.result2 a "%" b (AdvCalc.modulo a b)],
            .completed, rest⟩ := by
        simp [AdvCalc.advanced_calculator, hm, h1, h2]
      rw [heq]
      exact ⟨rfl, fun _ => ⟨"%", AdvCalc.modulo a b, rfl⟩⟩
    · simp at h
  · have hm : menuLoop ["1", "2", "3", "4", "5", "6"] AdvCalc.invalidChoiceMsg
        ["6", "16"] = ([], some ("6", ["16"])) := by simp [menuLoop]
    have h16 : parseFloat "16" = some 16 := by decide
    have hsq : AdvCalc.square_root 16 = .num 4 :=
      square_root_exact 16 4 (by norm_num) (by norm_num)
    have heq : AdvCalc.advanced_calculator ["6", "16"] =
        ⟨AdvCalc.header ++ [.resultSqrt 16 (.num 4)], .completed, []⟩ := by
      simp [AdvCalc.advanced_calculator, hm, h16, hsq]
    rw [heq]
    decide

/-- Witness for C9: choice `6` with the single operand `"16"`. -/
theorem claim9_advanced_operand_arity_witness :
    AdvCalc.advanced_calculator ("6" :: "16" :: []) =
      ⟨AdvCalc.header ++ [.resultSqrt 16 (AdvCalc.square_root 16)], .completed, []⟩ :=
  claim9_advanced_operand_arity.1 "16" 16 [] (by decide)

end AiSandBox
